import Mathlib

/-!
Verification of the staged-item batch-job coordinator of
`alma-item-checks-processor-service`.

The development shallowly embeds the two coordinator services
(`SCFNoRowTrayReportService` in
`services/scf_no_row_tray_report_service.py` and
`IZNoRowTrayReportService` in
`services/iz_no_row_tray_report_service.py`) as pure functions over
explicit storage states.  Azure table rows are modelled as records
keeping exactly the fields the embedded code reads or writes; the
single report table is split by `PartitionKey` into its job-record rows
(partition `batch_job`) and its item-record rows (whose `PartitionKey`
string is kept as data, because the writer and the reader of item rows
use different partition-key strings).  The external collaborators
(Alma item fetch, classification predicate, entity persistence
success) are oracles passed as function arguments; wall-clock instants
are integers counting minutes.  The batch-size configuration constants
(`SCF_NO_ROW_TRAY_BATCH_SIZE`, `IZ_NO_ROW_TRAY_BATCH_SIZE`) are
imported by the services but not defined in the shipped `config.py`,
so every function is parametrised by the batch size; the claims
quantify over positive batch sizes.
-/

namespace AlmaItemChecks

/-- Outcome of `_process_single_item` for one barcode: the item was
not found in Alma on re-fetch, the classification predicate no longer
holds, or the item still qualifies (`{"success": True}`). -/
inductive SingleResult
  | notFoundInAlma
  | noLongerMeetsCriteria
  | ok
deriving DecidableEq, Repr

/-- The `reason` string `_process_single_item` attaches to a failed
outcome (`""` for a success, which carries no reason). -/
def singleReason : SingleResult → String
  | SingleResult.notFoundInAlma => "Item not found in Alma"
  | SingleResult.noLongerMeetsCriteria => "No longer meets processing criteria"
  | SingleResult.ok => ""

/-- Whether `_process_single_item` reported `success = True`. -/
def singleSuccess : SingleResult → Bool
  | SingleResult.ok => true
  | _ => false

/-- A staged-item row as read back from a staging table.  `rowKey` is
the barcode (`""` models a missing or empty `RowKey`, both falsy in
Python); `institution_code` is read only by the IZ service (`""`
models a missing or empty value). -/
structure StagedEntity where
  rowKey : String
  institution_code : String
deriving DecidableEq, Repr

/-- The `batch_job` partition row of the SCF report table, with the
fields `_create_batch_job` writes and `_update_batch_progress` reads.
`created_at` is an instant in minutes; it is stored but never read by
the SCF already-running check. -/
structure JobEntity where
  rowKey : String
  status : String
  total_items : Nat
  total_batches : Nat
  completed_batches : Nat
  processed_items : Nat
  failed_items : Nat
  created_at : Int
  completed_at : Option Int
deriving DecidableEq, Repr

/-- An item row of the SCF report table.  The `PartitionKey` string is
kept as data: `process_batch` writes rows with partition key
`scf_no_row_tray_item`, while `_generate_final_report` queries the
partitions `processed_item` and `failed_item`. -/
structure ItemRecord where
  partitionKey : String
  rowKey : String
  job_id : String
  barcode : String
deriving DecidableEq, Repr

/-- An SCF batch queue message as built by `_enqueue_batches`. -/
structure BatchMessage where
  job_id : String
  batch_number : Nat
  barcodes : List String
deriving DecidableEq, Repr

/-- The final report blob built by `_generate_final_report`, keeping
the fields the claims speak about (institution fields and timestamps
are omitted; items are represented by their barcodes). -/
structure FinalReport where
  job_id : String
  total_items : Nat
  total_batches : Nat
  successfully_processed : Nat
  failed : Nat
  processed_items : List String
  failed_items : List String
deriving DecidableEq, Repr

/-- The storage touched by the SCF service: the staging table's
`scf_no_row_tray` partition, the report table split into its
`batch_job` rows and its item rows, the batch queue, the report blob
container and the notification queue.  `reportsGenerated` counts the
invocations of `_generate_final_report`. -/
structure SCFState where
  stageTable : List StagedEntity
  jobs : List JobEntity
  itemRecords : List ItemRecord
  queueMessages : List BatchMessage
  finalReports : List FinalReport
  notifications : Nat
  reportsGenerated : Nat
deriving DecidableEq, Repr

/-- Storage state before any job exists, holding a staged set. -/
def initialSCFState (staged : List StagedEntity) : SCFState :=
  { stageTable := staged
    jobs := []
    itemRecords := []
    queueMessages := []
    finalReports := []
    notifications := 0
    reportsGenerated := 0 }

/-- `get_entities` on the `batch_job` partition filtered by
`RowKey eq job_id`, taking the first hit as the code does. -/
def findJob (jobs : List JobEntity) (jobId : String) : Option JobEntity :=
  (jobs.filter (fun j => j.rowKey = jobId)).head?

/-- `upsert_entity` on the `batch_job` partition: replace the row with
the same `RowKey`, or append it. -/
def upsertJob (jobs : List JobEntity) (j : JobEntity) : List JobEntity :=
  if jobs.any (fun k => k.rowKey = j.rowKey) then
    jobs.map (fun k => if k.rowKey = j.rowKey then j else k)
  else jobs ++ [j]

/-- `upsert_entity` for an item row, keyed by
(`PartitionKey`, `RowKey`). -/
def upsertItemRecord (records : List ItemRecord) (r : ItemRecord) : List ItemRecord :=
  if records.any (fun k => k.partitionKey = r.partitionKey ∧ k.rowKey = r.rowKey) then
    records.map (fun k =>
      if k.partitionKey = r.partitionKey ∧ k.rowKey = r.rowKey then r else k)
  else records ++ [r]

/-- The loop `for i in range(0, len(staged_entities), BATCH_SIZE)`
slicing a list into contiguous slices of `b` elements, written with
the list length as structural fuel (one iteration consumes at least
one element whenever `b > 0`). -/
def chunkListAux (b : Nat) : Nat → List α → List (List α)
  | _, [] => []
  | 0, _ :: _ => []
  | fuel + 1, x :: xs => (x :: xs).take b :: chunkListAux b fuel ((x :: xs).drop b)

/-- Contiguous slices of `b` elements of a list, in source order. -/
def chunkList (b : Nat) (l : List α) : List (List α) :=
  chunkListAux b l.length l

/-- `total_batches` as computed by `_create_batch_job`:
`(total_items + BATCH_SIZE - 1) // BATCH_SIZE`. -/
def scfTotalBatches (total_items batchSize : Nat) : Nat :=
  (total_items + batchSize - 1) / batchSize

/-- The job record `_create_batch_job` writes: counters zeroed,
`status = "in_progress"`. -/
def scfCreateBatchJob (jobId : String) (total_items batchSize : Nat) (now : Int) :
    JobEntity :=
  { rowKey := jobId
    status := "in_progress"
    total_items := total_items
    total_batches := scfTotalBatches total_items batchSize
    completed_batches := 0
    processed_items := 0
    failed_items := 0
    created_at := now
    completed_at := none }

/-- `_enqueue_batches`: slice the staged entities into contiguous
batches of `batchSize`, number the batches from 1, and keep the truthy
`RowKey` of each entity (`[entity.get("RowKey") for entity in batch if
entity.get("RowKey")]`).  A send failure is logged and skipped, so the
list of computed messages is unaffected by individual send errors. -/
def scfEnqueueBatches (batchSize : Nat) (staged : List StagedEntity) (jobId : String) :
    List BatchMessage :=
  (chunkList batchSize staged).enum.map (fun p =>
    { job_id := jobId
      batch_number := p.1 + 1
      barcodes := p.2.filterMap (fun e =>
        if e.rowKey = "" then none else some e.rowKey) })

/-- `_is_job_already_running` of the SCF service: query the
`batch_job` partition for rows with `status eq 'in_progress'` and
report whether any exist.  Any storage error (`fetchErr`) is caught
and answered with `False` ("assume no job is running to avoid
blocking").  No staleness check and no deletion happen here. -/
def scfIsJobAlreadyRunning (fetchErr : Bool) (jobs : List JobEntity) : Bool :=
  if fetchErr then false
  else !(jobs.filter (fun j => j.status = "in_progress")).isEmpty

/-- `_get_processed_items_for_job`: the barcodes of the item rows in
partition `pk` tagged with `job_id eq jobId`. -/
def scfGetProcessedItemsForJob (records : List ItemRecord) (jobId pk : String) :
    List String :=
  (records.filter (fun r => r.partitionKey = pk ∧ r.job_id = jobId)).map
    (fun r => r.barcode)

/-- `_generate_final_report` on its successful-upload path: fetch the
`processed_item` and `failed_item` partitions for the job, build the
report with summary counts equal to the lengths of the fetched lists,
store the blob and send one notification.  `reportsGenerated` counts
the invocation itself. -/
def scfGenerateFinalReport (st : SCFState) (job : JobEntity) : SCFState :=
  let processed := scfGetProcessedItemsForJob st.itemRecords job.rowKey "processed_item"
  let failed := scfGetProcessedItemsForJob st.itemRecords job.rowKey "failed_item"
  let report : FinalReport :=
    { job_id := job.rowKey
      total_items := job.total_items
      total_batches := job.total_batches
      successfully_processed := processed.length
      failed := failed.length
      processed_items := processed
      failed_items := failed }
  { st with
    reportsGenerated := st.reportsGenerated + 1
    finalReports := st.finalReports ++ [report]
    notifications := st.notifications + 1 }

/-- `_update_batch_progress`: read the job row, add one completed
batch and the two count deltas, mark the job `completed` once
`completed_batches >= total_batches`, write the row back, and if the
written row's status is `completed` invoke `_generate_final_report`.
A missing job row drops the update silently. -/
def scfUpdateBatchProgress (st : SCFState) (jobId : String)
    (batchProcessed batchFailed : Nat) (now : Int) : SCFState :=
  match findJob st.jobs jobId with
  | none => st
  | some job =>
    let j1 : JobEntity :=
      { job with
        completed_batches := job.completed_batches + 1
        processed_items := job.processed_items + batchProcessed
        failed_items := job.failed_items + batchFailed }
    let j2 : JobEntity :=
      if j1.total_batches ≤ j1.completed_batches then
        { j1 with status := "completed", completed_at := some now }
      else j1
    let st1 := { st with jobs := upsertJob st.jobs j2 }
    if j2.status = "completed" then scfGenerateFinalReport st1 j2 else st1

/-- Accumulator of the item loop of `process_batch`: the
`processed_items` and `failed_items` lists and the item rows written
so far. -/
structure BatchLoopResult where
  processed : List String
  failed : List (String × String)
  records : List ItemRecord
deriving DecidableEq, Repr

/-- One iteration of the item loop of `process_batch`: evaluate
`_process_single_item` (the `outcome` oracle); on success attempt to
upsert the item row under partition `scf_no_row_tray_item` — a persist
error (`persistFails`) is caught, logged and the barcode is still
appended to `processed_items`; otherwise append the barcode and the
reason to `failed_items`. -/
def scfBatchStep (outcome : String → SingleResult) (persistFails : String → Bool)
    (jobId : String) (acc : BatchLoopResult) (barcode : String) : BatchLoopResult :=
  match outcome barcode with
  | SingleResult.ok =>
    let rcd : ItemRecord :=
      { partitionKey := "scf_no_row_tray_item"
        rowKey := jobId ++ "_" ++ barcode
        job_id := jobId
        barcode := barcode }
    { acc with
      records := if persistFails barcode then acc.records
                 else upsertItemRecord acc.records rcd
      processed := acc.processed ++ [barcode] }
  | r => { acc with failed := acc.failed ++ [(barcode, singleReason r)] }

/-- The item loop of `process_batch` over a whole batch, starting from
empty outcome lists and the current item rows. -/
def scfBatchLoop (outcome : String → SingleResult) (persistFails : String → Bool)
    (jobId : String) (barcodes : List String) (records0 : List ItemRecord) :
    BatchLoopResult :=
  barcodes.foldl (scfBatchStep outcome persistFails jobId)
    { processed := [], failed := [], records := records0 }

/-- `_clear_batch_from_staging`: delete every barcode of the batch
from the staging partition (a delete failure is logged and the loop
continues, so the surviving rows are those whose key is not in the
batch). -/
def scfClearBatchFromStaging (stage : List StagedEntity) (barcodes : List String) :
    List StagedEntity :=
  stage.filter (fun e => e.rowKey ∉ barcodes)

/-- An observable storage call of `process_batch`, in call order:
the progress update and the staging deletions. -/
inductive Ev
  | progressUpdate (jobId : String) (batchProcessed batchFailed : Nat)
  | stageDelete (barcode : String)
deriving DecidableEq, Repr

/-- `process_batch` of the SCF service: bail out if the SCF
institution is missing; run the item loop; call
`_update_batch_progress` with the two list lengths; then clear the
batch from staging.  The second component is the trace of the
progress-update and staging-deletion calls in program order. -/
def scfProcessBatch (outcome : String → SingleResult) (persistFails : String → Bool)
    (instFound : Bool) (now : Int) (jobId : String) (batchNumber : Nat)
    (barcodes : List String) (st : SCFState) : SCFState × List Ev :=
  if instFound = false then (st, [])
  else
    let result := scfBatchLoop outcome persistFails jobId barcodes st.itemRecords
    let st1 := { st with itemRecords := result.records }
    let st2 := scfUpdateBatchProgress st1 jobId result.processed.length
      result.failed.length now
    let st3 := { st2 with stageTable := scfClearBatchFromStaging st2.stageTable barcodes }
    (st3, Ev.progressUpdate jobId result.processed.length result.failed.length ::
          barcodes.map Ev.stageDelete)

/-- `process_staged_items_report` of the SCF service (the launcher):
return if a job is already in progress, if the SCF institution is
missing, or if the staged set reads empty (a staging read error is
answered with `[]`); otherwise create the job record and enqueue the
batches. -/
def scfLaunch (fetchErr instFound stageReadErr : Bool) (jobId : String)
    (batchSize : Nat) (now : Int) (st : SCFState) : SCFState :=
  if scfIsJobAlreadyRunning fetchErr st.jobs then st
  else if instFound = false then st
  else
    let staged := if stageReadErr then [] else st.stageTable
    if staged.isEmpty then st
    else
      let job := scfCreateBatchJob jobId staged.length batchSize now
      { st with
        jobs := upsertJob st.jobs job
        queueMessages := st.queueMessages ++ scfEnqueueBatches batchSize staged jobId }

/-- The `created_at` field of the IZ lock row as seen by
`_is_job_already_running`: absent or empty (falsy string), present but
rejected by `datetime.fromisoformat` (the `ValueError` branch), or
parsed to an instant in minutes. -/
inductive TimeStr
  | empty
  | invalid (s : String)
  | valid (t : Int)
deriving DecidableEq, Repr

/-- The `iz_batch_lock / current_job` row of the IZ stage table. -/
structure IZLock where
  created_at : TimeStr
deriving DecidableEq, Repr

/-- An IZ batch queue message: items are (barcode, institution_code)
pairs. -/
structure IZBatchMessage where
  job_id : String
  batch_number : Nat
  items : List (String × String)
deriving DecidableEq, Repr

/-- The storage touched by the IZ service: the stage table split into
its `iz_no_row_tray` partition and its singleton `iz_batch_lock`
partition, and the batch queue. -/
structure IZState where
  stageTable : List StagedEntity
  lock : Option IZLock
  queueMessages : List IZBatchMessage
deriving DecidableEq, Repr

/-- `_is_job_already_running` of the IZ service.  Any storage error
(`fetchErr`) is caught and answered with `False`.  With the lock row
present: an empty `created_at` falls through to `return True`; an
unparseable `created_at` returns `False` leaving the row in place and
writing nothing; a parsed `created_at` older than 30 minutes deletes
the row and returns `False` (no fresh lock is written); otherwise
`True`.  With the lock row absent, a fresh lock is written and the
check returns `False`. -/
def izIsJobAlreadyRunning (fetchErr : Bool) (now : Int) (st : IZState) :
    Bool × IZState :=
  if fetchErr then (false, st)
  else
    match st.lock with
    | some lk =>
      match lk.created_at with
      | TimeStr.empty => (true, st)
      | TimeStr.invalid _ => (false, st)
      | TimeStr.valid t =>
        if 30 < now - t then (false, { st with lock := none })
        else (true, st)
    | none =>
      (false, { st with lock := some { created_at := TimeStr.valid now } })

/-- `_enqueue_batches` of the IZ service: contiguous slices of
`batchSize`, numbered from 1, keeping the (barcode, institution_code)
pairs of the entities where both fields are truthy. -/
def izEnqueueBatches (batchSize : Nat) (staged : List StagedEntity) (jobId : String) :
    List IZBatchMessage :=
  (chunkList batchSize staged).enum.map (fun p =>
    { job_id := jobId
      batch_number := p.1 + 1
      items := p.2.filterMap (fun e =>
        if e.rowKey = "" ∨ e.institution_code = "" then none
        else some (e.rowKey, e.institution_code)) })

/-- `process_staged_items_report` of the IZ service (the launcher):
run the lock check (which may itself write or delete the lock row),
return if it answers already-running; otherwise read the staged set (a
read error is answered with `[]`), return if it is empty, and
otherwise enqueue the batches.  The IZ `_create_batch_job` only logs a
fresh `job_id`; it writes no record. -/
def izLaunch (fetchErr stageReadErr : Bool) (jobId : String) (batchSize : Nat)
    (now : Int) (st : IZState) : IZState :=
  let chk := izIsJobAlreadyRunning fetchErr now st
  if chk.1 then chk.2
  else
    let staged := if stageReadErr then [] else chk.2.stageTable
    if staged.isEmpty then chk.2
    else
      { chk.2 with
        queueMessages := chk.2.queueMessages ++ izEnqueueBatches batchSize staged jobId }

/-- Whether a trace event is a staging deletion. -/
def evIsDelete : Ev → Bool
  | Ev.stageDelete _ => true
  | _ => false

/-- Whether a trace event is a progress-aggregator call. -/
def evIsProgress : Ev → Bool
  | Ev.progressUpdate _ _ _ => true
  | _ => false

/-- Every staging deletion precedes every progress-aggregator call in
the trace: after the first progress call no deletion occurs. -/
def deletionsBeforeProgress (tr : List Ev) : Bool :=
  (tr.dropWhile (fun e => !(evIsProgress e))).all (fun e => !(evIsDelete e))

/-- The progress-aggregator call precedes every staging deletion in
the trace: after the first deletion no progress call occurs. -/
def progressBeforeDeletions (tr : List Ev) : Bool :=
  (tr.dropWhile (fun e => !(evIsDelete e))).all (fun e => !(evIsProgress e))

/-- `_update_batch_progress` applied to a list of per-batch
`(processed, failed)` count pairs in sequence. -/
def runProgress (jobId : String) (calls : List (Nat × Nat)) (st : SCFState) : SCFState :=
  calls.foldl (fun s c => scfUpdateBatchProgress s jobId c.1 c.2 0) st

/-- The job record as created by the launcher, with an arbitrary batch
count: the shape `_create_batch_job` writes, counters zeroed and
status `in_progress`. -/
def freshJob (jobId : String) (totalItems totalBatches : Nat) : JobEntity :=
  { rowKey := jobId
    status := "in_progress"
    total_items := totalItems
    total_batches := totalBatches
    completed_batches := 0
    processed_items := 0
    failed_items := 0
    created_at := 0
    completed_at := none }

/-- A state holding exactly one job record and nothing else. -/
def jobOnlyState (j : JobEntity) : SCFState :=
  { stageTable := []
    jobs := [j]
    itemRecords := []
    queueMessages := []
    finalReports := []
    notifications := 0
    reportsGenerated := 0 }

/-! Section: Lemmas about batch slicing -/

theorem ceil_div_succ_step (b n : Nat) (hb : 0 < b) (hn : 0 < n) :
    (n + b - 1) / b = (n - b + b - 1) / b + 1 := by
  rcases Nat.le_total b n with h | h
  · have h1 : n - b + b - 1 = n - 1 := by omega
    have h2 : n + b - 1 = (n - 1) + b := by omega
    rw [h1, h2, Nat.add_div_right _ hb]
  · have h1 : n - b = 0 := by omega
    have h2 : (0 + b - 1) / b = 0 := Nat.div_eq_of_lt (by omega)
    have h3 : n + b - 1 < 2 * b := by omega
    have h4 : 1 * b ≤ n + b - 1 := by omega
    rw [h1, h2, Nat.div_eq_of_lt_le h4 h3]

theorem chunkListAux_flatten (b : Nat) (hb : b ≠ 0) :
    ∀ (fuel : Nat) (l : List α), l.length ≤ fuel →
      (chunkListAux b fuel l).flatten = l := by
  intro fuel
  induction fuel with
  | zero =>
    intro l hl
    cases l with
    | nil => rfl
    | cons x xs => simp at hl
  | succ n ih =>
    intro l hl
    cases l with
    | nil => rfl
    | cons x xs =>
      show ((x :: xs).take b :: chunkListAux b n ((x :: xs).drop b)).flatten = x :: xs
      rw [List.flatten_cons,
        ih ((x :: xs).drop b) (by simp only [List.length_drop, List.length_cons] at hl ⊢; omega),
        List.take_append_drop]

theorem chunkList_flatten (b : Nat) (hb : b ≠ 0) (l : List α) :
    (chunkList b l).flatten = l :=
  chunkListAux_flatten b hb l.length l (Nat.le_refl _)

theorem chunkListAux_length (b : Nat) (hb : b ≠ 0) :
    ∀ (fuel : Nat) (l : List α), l.length ≤ fuel →
      (chunkListAux b fuel l).length = (l.length + b - 1) / b := by
  intro fuel
  induction fuel with
  | zero =>
    intro l hl
    cases l with
    | nil => simpa using (Nat.div_eq_of_lt (show 0 + b - 1 < b by omega)).symm
    | cons x xs => simp at hl
  | succ n ih =>
    intro l hl
    cases l with
    | nil => simpa using (Nat.div_eq_of_lt (show 0 + b - 1 < b by omega)).symm
    | cons x xs =>
      show (((x :: xs).take b) :: chunkListAux b n ((x :: xs).drop b)).length = _
      rw [List.length_cons,
        ih ((x :: xs).drop b) (by simp only [List.length_drop, List.length_cons] at hl ⊢; omega),
        List.length_drop]
      exact (ceil_div_succ_step b (x :: xs).length (by omega) (by simp)).symm

theorem chunkList_length (b : Nat) (hb : b ≠ 0) (l : List α) :
    (chunkList b l).length = (l.length + b - 1) / b :=
  chunkListAux_length b hb l.length l (Nat.le_refl _)

/-! Section: Lemmas about `_enqueue_batches` -/

theorem filterMap_truthy_rowKey (l : List StagedEntity)
    (h : ∀ e ∈ l, e.rowKey ≠ "") :
    l.filterMap (fun e => if e.rowKey = "" then none else some e.rowKey) =
      l.map StagedEntity.rowKey := by
  induction l with
  | nil => rfl
  | cons x xs ih =>
    have hx : x.rowKey ≠ "" := h x (List.mem_cons_self x xs)
    simp only [List.filterMap_cons, List.map_cons, if_neg hx]
    rw [ih (fun e he => h e (List.mem_cons_of_mem x he))]

theorem scfEnqueueBatches_length (b : Nat) (hb : b ≠ 0)
    (staged : List StagedEntity) (jobId : String) :
    (scfEnqueueBatches b staged jobId).length = scfTotalBatches staged.length b := by
  unfold scfEnqueueBatches scfTotalBatches
  rw [List.length_map, List.enum_length, chunkList_length b hb]

theorem scfEnqueueBatches_map_barcodes (b : Nat)
    (staged : List StagedEntity) (jobId : String) :
    (scfEnqueueBatches b staged jobId).map BatchMessage.barcodes =
      (chunkList b staged).map (fun c =>
        c.filterMap (fun e => if e.rowKey = "" then none else some e.rowKey)) := by
  unfold scfEnqueueBatches
  rw [List.map_map, show (BatchMessage.barcodes ∘ fun p : Nat × List StagedEntity =>
      ({ job_id := jobId, batch_number := p.1 + 1,
         barcodes := p.2.filterMap (fun e =>
           if e.rowKey = "" then none else some e.rowKey) } : BatchMessage)) =
      ((fun c : List StagedEntity => c.filterMap (fun e =>
        if e.rowKey = "" then none else some e.rowKey)) ∘ Prod.snd) from rfl,
    ← List.map_map, List.enum_map_snd]

theorem scfEnqueueBatches_flatten (b : Nat) (hb : b ≠ 0)
    (staged : List StagedEntity) (jobId : String)
    (h : ∀ e ∈ staged, e.rowKey ≠ "") :
    ((scfEnqueueBatches b staged jobId).map BatchMessage.barcodes).flatten =
      staged.map StagedEntity.rowKey := by
  rw [scfEnqueueBatches_map_barcodes, ← List.filterMap_flatten,
    chunkList_flatten b hb, filterMap_truthy_rowKey staged h]

theorem scfEnqueueBatches_sum (b : Nat) (hb : b ≠ 0)
    (staged : List StagedEntity) (jobId : String)
    (h : ∀ e ∈ staged, e.rowKey ≠ "") :
    ((scfEnqueueBatches b staged jobId).map (fun m => m.barcodes.length)).sum =
      staged.length := by
  have h1 : (scfEnqueueBatches b staged jobId).map (fun m => m.barcodes.length) =
      ((scfEnqueueBatches b staged jobId).map BatchMessage.barcodes).map List.length := by
    rw [List.map_map]; rfl
  rw [h1, ← List.length_flatten, scfEnqueueBatches_flatten b hb staged jobId h,
    List.length_map]

theorem scfEnqueueBatches_job_id (b : Nat) (staged : List StagedEntity)
    (jobId : String) (m : BatchMessage)
    (hm : m ∈ scfEnqueueBatches b staged jobId) : m.job_id = jobId := by
  unfold scfEnqueueBatches at hm
  obtain ⟨p, _, rfl⟩ := List.mem_map.mp hm
  rfl

/-! Section: Step lemmas for `_update_batch_progress` -/

theorem scfUpdateBatchProgress_not_final (st : SCFState) (j : JobEntity)
    (jobId : String) (p f : Nat) (now : Int)
    (hj : st.jobs = [j]) (hr : j.rowKey = jobId) (hs : j.status ≠ "completed")
    (hc : j.completed_batches + 1 < j.total_batches) :
    scfUpdateBatchProgress st jobId p f now =
      { st with jobs := [{ j with
          completed_batches := j.completed_batches + 1
          processed_items := j.processed_items + p
          failed_items := j.failed_items + f }] } := by
  unfold scfUpdateBatchProgress findJob upsertJob
  rw [hj]
  simp only [List.filter_cons, List.filter_nil, hr, decide_True, if_true,
    List.head?_cons, List.any_cons, List.any_nil, Bool.or_false, decide_eq_true_eq]
  rw [if_neg (Nat.not_le.mpr hc)]
  simp [hs, hr]

theorem scfUpdateBatchProgress_final (st : SCFState) (j : JobEntity)
    (jobId : String) (p f : Nat) (now : Int)
    (hj : st.jobs = [j]) (hr : j.rowKey = jobId)
    (hc : j.total_batches ≤ j.completed_batches + 1) :
    scfUpdateBatchProgress st jobId p f now =
      { st with
        jobs := [{ j with
          status := "completed"
          completed_batches := j.completed_batches + 1
          processed_items := j.processed_items + p
          failed_items := j.failed_items + f
          completed_at := some now }]
        reportsGenerated := st.reportsGenerated + 1
        finalReports := st.finalReports ++
          [{ job_id := jobId
             total_items := j.total_items
             total_batches := j.total_batches
             successfully_processed :=
               (scfGetProcessedItemsForJob st.itemRecords jobId "processed_item").length
             failed :=
               (scfGetProcessedItemsForJob st.itemRecords jobId "failed_item").length
             processed_items := scfGetProcessedItemsForJob st.itemRecords jobId "processed_item"
             failed_items := scfGetProcessedItemsForJob st.itemRecords jobId "failed_item" }]
        notifications := st.notifications + 1 } := by
  unfold scfUpdateBatchProgress findJob upsertJob scfGenerateFinalReport
  rw [hj]
  simp only [List.filter_cons, List.filter_nil, hr, decide_True, if_true,
    List.head?_cons, List.any_cons, List.any_nil, Bool.or_false, decide_eq_true_eq]
  rw [if_pos hc]
  simp [hr]

/-- Folding `_update_batch_progress` over a list of per-batch count
pairs, starting from a singleton job table whose job is in progress
and has batches left: counters accumulate, the status flips to
`completed` exactly when the batch budget is exhausted, and the report
generator has then run exactly once.  The staging table, item rows and
queue are untouched. -/
theorem runProgress_spec (jobId : String) :
    ∀ (cs : List (Nat × Nat)) (st : SCFState) (j : JobEntity),
      st.jobs = [j] → j.rowKey = jobId → j.status = "in_progress" →
      j.completed_batches < j.total_batches →
      j.completed_batches + cs.length ≤ j.total_batches →
      ∃ j' : JobEntity,
        (runProgress jobId cs st).jobs = [j'] ∧
        j'.rowKey = jobId ∧
        j'.total_batches = j.total_batches ∧
        j'.total_items = j.total_items ∧
        j'.completed_batches = j.completed_batches + cs.length ∧
        j'.processed_items = j.processed_items + (cs.map Prod.fst).sum ∧
        j'.failed_items = j.failed_items + (cs.map Prod.snd).sum ∧
        j'.status = (if j.total_batches ≤ j.completed_batches + cs.length
                     then "completed" else "in_progress") ∧
        (runProgress jobId cs st).reportsGenerated =
          st.reportsGenerated +
            (if j.total_batches ≤ j.completed_batches + cs.length then 1 else 0) ∧
        (runProgress jobId cs st).stageTable = st.stageTable ∧
        (runProgress jobId cs st).itemRecords = st.itemRecords ∧
        (runProgress jobId cs st).queueMessages = st.queueMessages := by
  intro cs
  induction cs with
  | nil =>
    intro st j hj hr hs hlt _
    refine ⟨j, hj, hr, rfl, rfl, by simp, by simp, by simp, ?_, ?_, rfl, rfl, rfl⟩
    · simp only [List.length_nil, Nat.add_zero]
      rw [if_neg (by omega)]
      exact hs
    · simp only [List.length_nil, Nat.add_zero]
      rw [if_neg (by omega)]
      simp [runProgress]
  | cons c rest ih =>
    intro st j hj hr hs hlt hle
    have hrun : runProgress jobId (c :: rest) st =
        runProgress jobId rest (scfUpdateBatchProgress st jobId c.1 c.2 0) := rfl
    by_cases hfin : j.total_batches ≤ j.completed_batches + 1
    · have hrest : rest = [] := by
        simp only [List.length_cons] at hle
        cases rest with
        | nil => rfl
        | cons r rs => exfalso; simp only [List.length_cons] at hle; omega
      subst hrest
      rw [hrun, scfUpdateBatchProgress_final st j jobId c.1 c.2 0 hj hr hfin]
      refine ⟨_, rfl, hr, rfl, rfl, by simp, by simp, by simp, ?_, ?_, rfl, rfl, rfl⟩
      · simp only [List.length_cons, List.length_nil]
        rw [if_pos (by omega)]
      · simp only [List.length_cons, List.length_nil, runProgress, List.foldl_nil]
        rw [if_pos (by omega)]
    · have hstep := scfUpdateBatchProgress_not_final st j jobId c.1 c.2 0 hj hr
        (by rw [hs]; intro hcon; exact absurd hcon (by decide)) (by omega)
      rw [hrun, hstep]
      have hle' : j.completed_batches + 1 + rest.length ≤ j.total_batches := by
        simp only [List.length_cons] at hle
        omega
      obtain ⟨j', h1, h2, h3, h4, h5, h6, h7, h8, h9, h10, h11, h12⟩ :=
        ih ({ st with jobs := [{ j with
                completed_batches := j.completed_batches + 1
                processed_items := j.processed_items + c.1
                failed_items := j.failed_items + c.2 }] })
          ({ j with
                completed_batches := j.completed_batches + 1
                processed_items := j.processed_items + c.1
                failed_items := j.failed_items + c.2 })
          rfl hr hs
          (show j.completed_batches + 1 < j.total_batches by omega)
          (show j.completed_batches + 1 + rest.length ≤ j.total_batches from hle')
      refine ⟨j', h1, h2, by rw [h3], by rw [h4], ?_, ?_, ?_, ?_, ?_, h10, h11, h12⟩
      · rw [h5]
        simp only [List.length_cons]
        omega
      · rw [h6]
        simp only [List.map_cons, List.sum_cons]
        omega
      · rw [h7]
        simp only [List.map_cons, List.sum_cons]
        omega
      · rw [h8]
        refine if_congr ?_ rfl rfl
        simp only [List.length_cons]
        omega
      · rw [h9]
        simp only [List.length_cons]
        congr 1
        refine if_congr ?_ rfl rfl
        omega

/-- Claim C1. For a job created with `total_batches = n` (counters
zeroed, status `in_progress`), running `_update_batch_progress`
sequentially on `n` per-batch count pairs leaves the status at
`in_progress` with zero `_generate_final_report` invocations after
every proper prefix of the calls, and after the `n`-th call the status
is `completed` and `_generate_final_report` has run exactly once. -/
theorem update_progress_completes_exactly_once (jobId : String) (totalItems n : Nat)
    (hn : 1 ≤ n) (calls : List (Nat × Nat)) (hlen : calls.length = n) :
    (∀ k, k < n →
      ∃ j, (runProgress jobId (calls.take k)
              (jobOnlyState (freshJob jobId totalItems n))).jobs = [j] ∧
        j.status = "in_progress" ∧
        (runProgress jobId (calls.take k)
          (jobOnlyState (freshJob jobId totalItems n))).reportsGenerated = 0) ∧
    (∃ j, (runProgress jobId calls
            (jobOnlyState (freshJob jobId totalItems n))).jobs = [j] ∧
      j.status = "completed") ∧
    (runProgress jobId calls
      (jobOnlyState (freshJob jobId totalItems n))).reportsGenerated = 1 := by
  have hjobs : (jobOnlyState (freshJob jobId totalItems n)).jobs =
      [freshJob jobId totalItems n] := rfl
  refine ⟨?_, ?_, ?_⟩
  · intro k hk
    obtain ⟨j', h1, _, _, _, _, _, _, h8, h9, _, _, _⟩ :=
      runProgress_spec jobId (calls.take k) _ (freshJob jobId totalItems n)
        hjobs rfl rfl hn
        (by simp only [freshJob, List.length_take, hlen]; omega)
    refine ⟨j', h1, ?_, ?_⟩
    · rw [h8]
      simp only [freshJob, List.length_take, hlen]
      rw [if_neg (by omega)]
    · rw [h9]
      simp only [freshJob, List.length_take, hlen, jobOnlyState]
      rw [if_neg (by omega)]
  · obtain ⟨j', h1, _, _, _, _, _, _, h8, _, _, _, _⟩ :=
      runProgress_spec jobId calls _ (freshJob jobId totalItems n)
        hjobs rfl rfl hn (by simp only [freshJob, hlen]; omega)
    refine ⟨j', h1, ?_⟩
    rw [h8]
    simp only [freshJob, hlen]
    rw [if_pos (by omega)]
  · obtain ⟨j', _, _, _, _, _, _, _, _, h9, _, _, _⟩ :=
      runProgress_spec jobId calls _ (freshJob jobId totalItems n)
        hjobs rfl rfl hn (by simp only [freshJob, hlen]; omega)
    rw [h9]
    simp only [freshJob, hlen, jobOnlyState]
    rw [if_pos (by omega)]

/-- Witness for C1 at `n = 2` with batch counts `(1,0)` and `(2,1)`. -/
theorem update_progress_completes_exactly_once_witness :
    (∀ k, k < 2 →
      ∃ j, (runProgress "J" ([(1, 0), (2, 1)].take k)
              (jobOnlyState (freshJob "J" 5 2))).jobs = [j] ∧
        j.status = "in_progress" ∧
        (runProgress "J" ([(1, 0), (2, 1)].take k)
          (jobOnlyState (freshJob "J" 5 2))).reportsGenerated = 0) ∧
    (∃ j, (runProgress "J" [(1, 0), (2, 1)]
            (jobOnlyState (freshJob "J" 5 2))).jobs = [j] ∧
      j.status = "completed") ∧
    (runProgress "J" [(1, 0), (2, 1)]
      (jobOnlyState (freshJob "J" 5 2))).reportsGenerated = 1 :=
  update_progress_completes_exactly_once "J" 5 2 (by decide) [(1, 0), (2, 1)] (by decide)

/-! Section: Lemmas about the item loop of `process_batch` -/

theorem length_filter_partition (p : α → Bool) (l : List α) :
    (l.filter p).length + (l.filter (fun x => !p x)).length = l.length := by
  induction l with
  | nil => rfl
  | cons x xs ih =>
    cases h : p x <;> simp only [List.filter_cons, h] <;> simp <;> omega

theorem scfBatchFold_spec (outcome : String → SingleResult)
    (persistFails : String → Bool) (jobId : String) :
    ∀ (l : List String) (acc : BatchLoopResult),
      (l.foldl (scfBatchStep outcome persistFails jobId) acc).processed =
        acc.processed ++ l.filter (fun x => singleSuccess (outcome x)) ∧
      (l.foldl (scfBatchStep outcome persistFails jobId) acc).failed =
        acc.failed ++ (l.filter (fun x => !singleSuccess (outcome x))).map
          (fun x => (x, singleReason (outcome x))) := by
  intro l
  induction l with
  | nil => intro acc; simp
  | cons x xs ih =>
    intro acc
    simp only [List.foldl_cons, List.filter_cons]
    cases h : outcome x with
    | ok =>
      have hs : singleSuccess (outcome x) = true := by rw [h]; rfl
      have hstep : scfBatchStep outcome persistFails jobId acc x =
          { acc with
            records := if persistFails x then acc.records
                       else upsertItemRecord acc.records
                         { partitionKey := "scf_no_row_tray_item"
                           rowKey := jobId ++ "_" ++ x
                           job_id := jobId
                           barcode := x }
            processed := acc.processed ++ [x] } := by
        unfold scfBatchStep
        rw [h]
      rw [hstep]
      refine ⟨?_, ?_⟩
      · rw [(ih _).1]
        simp [singleSuccess]
      · rw [(ih _).2]
        simp [singleSuccess]
    | notFoundInAlma =>
      have hs : singleSuccess (outcome x) = false := by rw [h]; rfl
      have hstep : scfBatchStep outcome persistFails jobId acc x =
          { acc with failed := acc.failed ++
              [(x, singleReason SingleResult.notFoundInAlma)] } := by
        unfold scfBatchStep
        rw [h]
      rw [hstep]
      refine ⟨?_, ?_⟩
      · rw [(ih _).1]
        simp [singleSuccess]
      · rw [(ih _).2]
        simp [singleSuccess, h]
    | noLongerMeetsCriteria =>
      have hs : singleSuccess (outcome x) = false := by rw [h]; rfl
      have hstep : scfBatchStep outcome persistFails jobId acc x =
          { acc with failed := acc.failed ++
              [(x, singleReason SingleResult.noLongerMeetsCriteria)] } := by
        unfold scfBatchStep
        rw [h]
      rw [hstep]
      refine ⟨?_, ?_⟩
      · rw [(ih _).1]
        simp [singleSuccess]
      · rw [(ih _).2]
        simp [singleSuccess, h]

theorem scfBatchLoop_processed (outcome : String → SingleResult)
    (persistFails : String → Bool) (jobId : String) (barcodes : List String)
    (records0 : List ItemRecord) :
    (scfBatchLoop outcome persistFails jobId barcodes records0).processed =
      barcodes.filter (fun x => singleSuccess (outcome x)) := by
  have h := (scfBatchFold_spec outcome persistFails jobId barcodes
    { processed := [], failed := [], records := records0 }).1
  simpa [scfBatchLoop] using h

theorem scfBatchLoop_failed (outcome : String → SingleResult)
    (persistFails : String → Bool) (jobId : String) (barcodes : List String)
    (records0 : List ItemRecord) :
    (scfBatchLoop outcome persistFails jobId barcodes records0).failed =
      (barcodes.filter (fun x => !singleSuccess (outcome x))).map
        (fun x => (x, singleReason (outcome x))) := by
  have h := (scfBatchFold_spec outcome persistFails jobId barcodes
    { processed := [], failed := [], records := records0 }).2
  simpa [scfBatchLoop] using h

theorem scfBatchLoop_counts (outcome : String → SingleResult)
    (persistFails : String → Bool) (jobId : String) (barcodes : List String)
    (records0 : List ItemRecord) :
    (scfBatchLoop outcome persistFails jobId barcodes records0).processed.length +
      (scfBatchLoop outcome persistFails jobId barcodes records0).failed.length =
      barcodes.length := by
  rw [scfBatchLoop_processed, scfBatchLoop_failed, List.length_map]
  exact length_filter_partition _ barcodes

/-- Claim C2. The SCF launcher's batch plan: `total_batches` is the
ceiling division of the staged-set size by the batch size; the number
of computed batch messages equals `total_batches`; concatenating the
messages' barcode lists in order recovers the staged barcodes in
source order (so every staged item is in exactly one message, with no
reordering); and the per-message item counts sum to the staged-set
size. -/
theorem enqueue_batches_partition (staged : List StagedEntity) (b : Nat)
    (jobId : String) (hb : 0 < b) (hrk : ∀ e ∈ staged, e.rowKey ≠ "") :
    scfTotalBatches staged.length b = staged.length ⌈/⌉ b ∧
    (scfEnqueueBatches b staged jobId).length = scfTotalBatches staged.length b ∧
    ((scfEnqueueBatches b staged jobId).map BatchMessage.barcodes).flatten =
      staged.map StagedEntity.rowKey ∧
    ((scfEnqueueBatches b staged jobId).map (fun m => m.barcodes.length)).sum =
      staged.length :=
  ⟨(Nat.ceilDiv_eq_add_pred_div _ _).symm,
    scfEnqueueBatches_length b (by omega) staged jobId,
    scfEnqueueBatches_flatten b (by omega) staged jobId hrk,
    scfEnqueueBatches_sum b (by omega) staged jobId hrk⟩

/-- Witness for C2 at the spec scenario: five staged items and batch
size 2 give batches `[A,B],[C,D],[E]` and `total_batches = 3`. -/
theorem enqueue_batches_partition_witness :
    scfTotalBatches ([⟨"A", ""⟩, ⟨"B", ""⟩, ⟨"C", ""⟩, ⟨"D", ""⟩, ⟨"E", ""⟩] :
        List StagedEntity).length 2 =
      ([⟨"A", ""⟩, ⟨"B", ""⟩, ⟨"C", ""⟩, ⟨"D", ""⟩, ⟨"E", ""⟩] :
        List StagedEntity).length ⌈/⌉ 2 ∧
    (scfEnqueueBatches 2 [⟨"A", ""⟩, ⟨"B", ""⟩, ⟨"C", ""⟩, ⟨"D", ""⟩, ⟨"E", ""⟩]
        "J").length =
      scfTotalBatches ([⟨"A", ""⟩, ⟨"B", ""⟩, ⟨"C", ""⟩, ⟨"D", ""⟩, ⟨"E", ""⟩] :
        List StagedEntity).length 2 ∧
    ((scfEnqueueBatches 2 [⟨"A", ""⟩, ⟨"B", ""⟩, ⟨"C", ""⟩, ⟨"D", ""⟩, ⟨"E", ""⟩]
        "J").map BatchMessage.barcodes).flatten =
      ([⟨"A", ""⟩, ⟨"B", ""⟩, ⟨"C", ""⟩, ⟨"D", ""⟩, ⟨"E", ""⟩] :
        List StagedEntity).map StagedEntity.rowKey ∧
    ((scfEnqueueBatches 2 [⟨"A", ""⟩, ⟨"B", ""⟩, ⟨"C", ""⟩, ⟨"D", ""⟩, ⟨"E", ""⟩]
        "J").map (fun m => m.barcodes.length)).sum =
      ([⟨"A", ""⟩, ⟨"B", ""⟩, ⟨"C", ""⟩, ⟨"D", ""⟩, ⟨"E", ""⟩] :
        List StagedEntity).length :=
  enqueue_batches_partition _ 2 "J" (by decide)
    (by intro e he; fin_cases he <;> decide)

/-! Section: Step and fold lemmas for `process_batch` -/

theorem scfProcessBatch_job_step (outcome : String → SingleResult)
    (persistFails : String → Bool) (now : Int) (jobId : String) (bn : Nat)
    (barcodes : List String) (st : SCFState) (j : JobEntity)
    (hj : st.jobs = [j]) (hr : j.rowKey = jobId) (hs : j.status = "in_progress") :
    ∃ j',
      (scfProcessBatch outcome persistFails true now jobId bn barcodes st).1.jobs =
        [j'] ∧
      j'.rowKey = jobId ∧
      j'.total_batches = j.total_batches ∧
      j'.total_items = j.total_items ∧
      j'.completed_batches = j.completed_batches + 1 ∧
      j'.processed_items + j'.failed_items =
        j.processed_items + j.failed_items + barcodes.length ∧
      j'.status = (if j.total_batches ≤ j.completed_batches + 1
                   then "completed" else "in_progress") := by
  have hj1 : ({ st with itemRecords :=
      (scfBatchLoop outcome persistFails jobId barcodes st.itemRecords).records } :
      SCFState).jobs = [j] := hj
  have hjf : (scfProcessBatch outcome persistFails true now jobId bn barcodes st).1.jobs =
      (scfUpdateBatchProgress
        { st with itemRecords :=
            (scfBatchLoop outcome persistFails jobId barcodes st.itemRecords).records }
        jobId
        (scfBatchLoop outcome persistFails jobId barcodes st.itemRecords).processed.length
        (scfBatchLoop outcome persistFails jobId barcodes st.itemRecords).failed.length
        now).jobs := rfl
  have hcounts := scfBatchLoop_counts outcome persistFails jobId barcodes st.itemRecords
  by_cases hfin : j.total_batches ≤ j.completed_batches + 1
  · have hupd := scfUpdateBatchProgress_final
      ({ st with itemRecords :=
          (scfBatchLoop outcome persistFails jobId barcodes st.itemRecords).records })
      j jobId
      (scfBatchLoop outcome persistFails jobId barcodes st.itemRecords).processed.length
      (scfBatchLoop outcome persistFails jobId barcodes st.itemRecords).failed.length
      now hj1 hr hfin
    refine ⟨{ j with
        status := "completed"
        completed_batches := j.completed_batches + 1
        processed_items := j.processed_items +
          (scfBatchLoop outcome persistFails jobId barcodes st.itemRecords).processed.length
        failed_items := j.failed_items +
          (scfBatchLoop outcome persistFails jobId barcodes st.itemRecords).failed.length
        completed_at := some now }, ?_, hr, rfl, rfl, rfl, ?_, ?_⟩
    · rw [hjf, hupd]
    · show j.processed_items + _ + (j.failed_items + _) = _
      omega
    · rw [if_pos hfin]
  · have hupd := scfUpdateBatchProgress_not_final
      ({ st with itemRecords :=
          (scfBatchLoop outcome persistFails jobId barcodes st.itemRecords).records })
      j jobId
      (scfBatchLoop outcome persistFails jobId barcodes st.itemRecords).processed.length
      (scfBatchLoop outcome persistFails jobId barcodes st.itemRecords).failed.length
      now hj1 hr (by rw [hs]; intro hcon; exact absurd hcon (by decide)) (by omega)
    refine ⟨{ j with
        completed_batches := j.completed_batches + 1
        processed_items := j.processed_items +
          (scfBatchLoop outcome persistFails jobId barcodes st.itemRecords).processed.length
        failed_items := j.failed_items +
          (scfBatchLoop outcome persistFails jobId barcodes st.itemRecords).failed.length },
        ?_, hr, rfl, rfl, rfl, ?_, ?_⟩
    · rw [hjf, hupd]
    · show j.processed_items + _ + (j.failed_items + _) = _
      omega
    · rw [if_neg hfin]
      exact hs

/-- Folding `process_batch` over a list of batch messages for the
job, starting from a singleton job table whose job is in progress and
has batches left: each batch adds one completed batch and its item
count split between the two counters, and the status flips to
`completed` exactly when the batch budget is exhausted. -/
theorem scfProcessBatches_spec (outcome : String → SingleResult)
    (persistFails : String → Bool) (now : Int) (jobId : String) :
    ∀ (ms : List BatchMessage) (st : SCFState) (j : JobEntity),
      st.jobs = [j] → j.rowKey = jobId → j.status = "in_progress" →
      j.completed_batches < j.total_batches →
      j.completed_batches + ms.length ≤ j.total_batches →
      (∀ m ∈ ms, m.job_id = jobId) →
      ∃ j',
        (ms.foldl (fun s m =>
          (scfProcessBatch outcome persistFails true now m.job_id m.batch_number
            m.barcodes s).1) st).jobs = [j'] ∧
        j'.rowKey = jobId ∧
        j'.total_batches = j.total_batches ∧
        j'.total_items = j.total_items ∧
        j'.completed_batches = j.completed_batches + ms.length ∧
        j'.processed_items + j'.failed_items =
          j.processed_items + j.failed_items +
            (ms.map (fun m => m.barcodes.length)).sum ∧
        j'.status = (if j.total_batches ≤ j.completed_batches + ms.length
                     then "completed" else "in_progress") := by
  intro ms
  induction ms with
  | nil =>
    intro st j hj hr hs hlt _ _
    refine ⟨j, hj, hr, rfl, rfl, by simp, by simp, ?_⟩
    simp only [List.length_nil, Nat.add_zero]
    rw [if_neg (by omega)]
    exact hs
  | cons m rest ih =>
    intro st j hj hr hs hlt hle hmem
    have hm : m.job_id = jobId := hmem m (List.mem_cons_self m rest)
    obtain ⟨j1, g1, g2, g3, g4, g5, g6, g7⟩ :=
      scfProcessBatch_job_step outcome persistFails now jobId m.batch_number
        m.barcodes st j hj hr hs
    have hfold : (m :: rest).foldl (fun s mm =>
          (scfProcessBatch outcome persistFails true now mm.job_id mm.batch_number
            mm.barcodes s).1) st =
        rest.foldl (fun s mm =>
          (scfProcessBatch outcome persistFails true now mm.job_id mm.batch_number
            mm.barcodes s).1)
          ((scfProcessBatch outcome persistFails true now m.job_id m.batch_number
            m.barcodes st).1) := rfl
    rw [hfold, hm]
    by_cases hfin : j.total_batches ≤ j.completed_batches + 1
    · have hrest : rest = [] := by
        simp only [List.length_cons] at hle
        cases rest with
        | nil => rfl
        | cons r rs => exfalso; simp only [List.length_cons] at hle; omega
      subst hrest
      refine ⟨j1, by simpa using g1, g2, g3, g4, by simpa using g5, ?_, ?_⟩
      · simp only [List.map_cons, List.map_nil, List.sum_cons, List.sum_nil,
          List.foldl_nil]
        omega
      · simp only [List.foldl_nil, List.length_cons, List.length_nil]
        rw [g7, if_pos hfin]
    · have hs1 : j1.status = "in_progress" := by rw [g7, if_neg hfin]
      obtain ⟨j', f1, f2, f3, f4, f5, f6, f7⟩ :=
        ih ((scfProcessBatch outcome persistFails true now jobId m.batch_number
              m.barcodes st).1) j1 (by rw [← hm] at g1 ⊢; exact g1) g2 hs1
          (by omega)
          (by simp only [List.length_cons] at hle; omega)
          (fun mm hmm => hmem mm (List.mem_cons_of_mem m hmm))
      refine ⟨j', f1, f2, by rw [f3, g3], by rw [f4, g4], ?_, ?_, ?_⟩
      · rw [f5, g5]
        simp only [List.length_cons]
        omega
      · rw [f6] at *
        simp only [List.map_cons, List.sum_cons]
        omega
      · rw [f7, g5, g3]
        refine if_congr ?_ rfl rfl
        simp only [List.length_cons]
        omega

theorem scfLaunch_initial (staged : List StagedEntity) (jobId : String)
    (b : Nat) (now : Int) (hne : staged ≠ []) :
    scfLaunch false true false jobId b now (initialSCFState staged) =
      { initialSCFState staged with
        jobs := [scfCreateBatchJob jobId staged.length b now]
        queueMessages := scfEnqueueBatches b staged jobId } := by
  unfold scfLaunch scfIsJobAlreadyRunning initialSCFState upsertJob
  simp [hne]

/-- Claim C8. Launching a job over a nonempty staged set (barcodes all
truthy) and then processing each enqueued batch exactly once, in any
order, leaves the job record `completed` with
`processed_items + failed_items = total_items = ` the staged-set
size — every item of every batch lands in exactly one of the two
counters and the per-batch sums accumulate to the job total. -/
theorem completed_job_counters (staged : List StagedEntity) (jobId : String)
    (b : Nat) (outcome : String → SingleResult) (persistFails : String → Bool)
    (now : Int) (bs : List BatchMessage)
    (hb : 0 < b) (hne : staged ≠ []) (hrk : ∀ e ∈ staged, e.rowKey ≠ "")
    (hperm : bs.Perm (scfEnqueueBatches b staged jobId)) :
    ∃ j',
      (bs.foldl (fun s m =>
        (scfProcessBatch outcome persistFails true now m.job_id m.batch_number
          m.barcodes s).1)
        (scfLaunch false true false jobId b now (initialSCFState staged))).jobs =
        [j'] ∧
      j'.status = "completed" ∧
      j'.processed_items + j'.failed_items = j'.total_items ∧
      j'.total_items = staged.length := by
  have hlen : bs.length = scfTotalBatches staged.length b := by
    rw [hperm.length_eq, scfEnqueueBatches_length b (by omega) staged jobId]
  have htot : 1 ≤ scfTotalBatches staged.length b := by
    have h1 : 1 ≤ staged.length := by
      cases staged with
      | nil => exact absurd rfl hne
      | cons x xs => simp
    unfold scfTotalBatches
    rw [Nat.le_div_iff_mul_le hb]
    omega
  have hsum : (bs.map (fun m => m.barcodes.length)).sum = staged.length := by
    rw [(hperm.map (fun m => m.barcodes.length)).sum_eq,
      scfEnqueueBatches_sum b (by omega) staged jobId hrk]
  rw [scfLaunch_initial staged jobId b now hne]
  obtain ⟨j', f1, f2, f3, f4, f5, f6, f7⟩ :=
    scfProcessBatches_spec outcome persistFails now jobId bs
      ({ initialSCFState staged with
        jobs := [scfCreateBatchJob jobId staged.length b now]
        queueMessages := scfEnqueueBatches b staged jobId })
      (scfCreateBatchJob jobId staged.length b now)
      rfl rfl rfl
      (by show 0 < scfTotalBatches staged.length b; omega)
      (by show 0 + bs.length ≤ scfTotalBatches staged.length b; omega)
      (fun m hm => scfEnqueueBatches_job_id b staged jobId m (hperm.mem_iff.mp hm))
  refine ⟨j', f1, ?_, ?_, by rw [f4]; rfl⟩
  · rw [f7]
    rw [if_pos (by show scfTotalBatches staged.length b ≤ 0 + bs.length; omega)]
  · rw [f6, f4]
    show 0 + 0 + (bs.map (fun m => m.barcodes.length)).sum = staged.length
    omega

/-- Witness for C8: three staged items, batch size 2, the two batches
delivered in reverse order, one item failing re-validation. -/
theorem completed_job_counters_witness :
    ∃ j',
      (([⟨"J", 2, ["C"]⟩, ⟨"J", 1, ["A", "B"]⟩] : List BatchMessage).foldl (fun s m =>
        (scfProcessBatch
          (fun bc => if bc = "B" then SingleResult.notFoundInAlma else SingleResult.ok)
          (fun _ => false) true 0 m.job_id m.batch_number m.barcodes s).1)
        (scfLaunch false true false "J" 2 0
          (initialSCFState [⟨"A", ""⟩, ⟨"B", ""⟩, ⟨"C", ""⟩]))).jobs = [j'] ∧
      j'.status = "completed" ∧
      j'.processed_items + j'.failed_items = j'.total_items ∧
      j'.total_items = ([⟨"A", ""⟩, ⟨"B", ""⟩, ⟨"C", ""⟩] :
        List StagedEntity).length :=
  completed_job_counters [⟨"A", ""⟩, ⟨"B", ""⟩, ⟨"C", ""⟩] "J" 2
    (fun bc => if bc = "B" then SingleResult.notFoundInAlma else SingleResult.ok)
    (fun _ => false) 0 ([⟨"J", 2, ["C"]⟩, ⟨"J", 1, ["A", "B"]⟩] : List BatchMessage)
    (by decide) (by decide) (by intro e he; fin_cases he <;> decide) (by decide)

/-! Section: Lock-check helper lemmas -/

theorem izCheck_err (now : Int) (st : IZState) :
    izIsJobAlreadyRunning true now st = (false, st) := rfl

theorem izCheck_stale (st : IZState) (t now : Int)
    (hl : st.lock = some { created_at := TimeStr.valid t }) (hst : 30 < now - t) :
    izIsJobAlreadyRunning false now st = (false, { st with lock := none }) := by
  unfold izIsJobAlreadyRunning
  rw [hl]
  simp [hst]

theorem izCheck_fresh (st : IZState) (t now : Int)
    (hl : st.lock = some { created_at := TimeStr.valid t }) (hst : now - t ≤ 30) :
    izIsJobAlreadyRunning false now st = (true, st) := by
  unfold izIsJobAlreadyRunning
  rw [hl]
  simp [Int.not_lt.mpr hst]

theorem izCheck_invalid (st : IZState) (s : String) (now : Int)
    (hl : st.lock = some { created_at := TimeStr.invalid s }) :
    izIsJobAlreadyRunning false now st = (false, st) := by
  unfold izIsJobAlreadyRunning
  rw [hl]
  rfl

theorem izCheck_absent (st : IZState) (now : Int) (hl : st.lock = none) :
    izIsJobAlreadyRunning false now st =
      (false, { st with lock := some { created_at := TimeStr.valid now } }) := by
  unfold izIsJobAlreadyRunning
  rw [hl]
  rfl

theorem scfCheck_err (jobs : List JobEntity) :
    scfIsJobAlreadyRunning true jobs = false := rfl

theorem scfCheck_inprogress (jobs : List JobEntity) (j : JobEntity)
    (hj : j ∈ jobs) (hs : j.status = "in_progress") :
    scfIsJobAlreadyRunning false jobs = true := by
  unfold scfIsJobAlreadyRunning
  have hmem : j ∈ jobs.filter (fun k => k.status = "in_progress") :=
    List.mem_filter.mpr ⟨hj, by simp [hs]⟩
  cases hfil : jobs.filter (fun k => k.status = "in_progress") with
  | nil => rw [hfil] at hmem; exact absurd hmem (List.not_mem_nil j)
  | cons a l => rfl

theorem scfUpdateBatchProgress_stageTable (st : SCFState) (jobId : String)
    (p f : Nat) (now : Int) :
    (scfUpdateBatchProgress st jobId p f now).stageTable = st.stageTable := by
  unfold scfUpdateBatchProgress
  cases findJob st.jobs jobId with
  | none => rfl
  | some j =>
    dsimp only
    split <;> split <;> rfl

theorem scfLaunch_initial_err (staged : List StagedEntity) (jobId : String)
    (b : Nat) (now : Int) (hne : staged ≠ []) :
    scfLaunch true true false jobId b now (initialSCFState staged) =
      { initialSCFState staged with
        jobs := [scfCreateBatchJob jobId staged.length b now]
        queueMessages := scfEnqueueBatches b staged jobId } := by
  unfold scfLaunch scfIsJobAlreadyRunning initialSCFState upsertJob
  simp [hne]

theorem progressBeforeDeletions_trace (jobId : String) (p f : Nat)
    (barcodes : List String) :
    progressBeforeDeletions
      (Ev.progressUpdate jobId p f :: barcodes.map Ev.stageDelete) = true := by
  unfold progressBeforeDeletions
  cases barcodes with
  | nil => rfl
  | cons x xs =>
    show ((Ev.progressUpdate jobId p f :: Ev.stageDelete x ::
      xs.map Ev.stageDelete).dropWhile (fun e => !(evIsDelete e))).all
        (fun e => !(evIsProgress e)) = true
    rw [List.dropWhile_cons_of_pos (by simp [evIsDelete]),
      List.dropWhile_cons_of_neg (by simp [evIsDelete])]
    simp [List.all_map, Function.comp, evIsProgress]

/-! Section: Claim theorems -/

/-- Claim C3, evaluated at the failing input. One staged item
`B1` that re-validates successfully: after the single batch completes,
the success row sits in the report table under partition
`scf_no_row_tray_item` and the job record counts one processed item,
yet the generated final report — which queries the never-written
partitions `processed_item` and `failed_item` — has empty
`processed_items`/`failed_items` and zero summary counts. -/
theorem final_report_misses_recorded_items :
    ((scfProcessBatch (fun _ => SingleResult.ok) (fun _ => false) true 0
        "J1" 1 ["B1"]
        (scfLaunch false true false "J1" 1 0
          (initialSCFState [⟨"B1", ""⟩]))).1.itemRecords =
      [{ partitionKey := "scf_no_row_tray_item", rowKey := "J1_B1",
         job_id := "J1", barcode := "B1" }]) ∧
    ((scfProcessBatch (fun _ => SingleResult.ok) (fun _ => false) true 0
        "J1" 1 ["B1"]
        (scfLaunch false true false "J1" 1 0
          (initialSCFState [⟨"B1", ""⟩]))).1.finalReports =
      [{ job_id := "J1", total_items := 1, total_batches := 1,
         successfully_processed := 0, failed := 0, processed_items := [],
         failed_items := [] }]) ∧
    ((scfProcessBatch (fun _ => SingleResult.ok) (fun _ => false) true 0
        "J1" 1 ["B1"]
        (scfLaunch false true false "J1" 1 0
          (initialSCFState [⟨"B1", ""⟩]))).1.jobs.map
        JobEntity.processed_items = [1]) ∧
    ((scfProcessBatch (fun _ => SingleResult.ok) (fun _ => false) true 0
        "J1" 1 ["B1"]
        (scfLaunch false true false "J1" 1 0
          (initialSCFState [⟨"B1", ""⟩]))).1.jobs.map
        JobEntity.status = ["completed"]) := by
  decide

/-- Counterexample to C4 as stated: for the one-item batch `["B1"]`
(item successful), the call trace of `process_batch` runs the
progress update before the staging deletion, so "deletion happens
before the Progress Aggregator is called" fails. -/
theorem staging_cleared_before_progress_cex :
    ¬ ((Ev.stageDelete "B1" ∈
        (scfProcessBatch (fun _ => SingleResult.ok) (fun _ => false) true 0
          "J1" 1 ["B1"] (jobOnlyState (freshJob "J1" 1 1))).2) ∧
      deletionsBeforeProgress
        ((scfProcessBatch (fun _ => SingleResult.ok) (fun _ => false) true 0
          "J1" 1 ["B1"] (jobOnlyState (freshJob "J1" 1 1))).2) = true) := by
  decide

/-- Claim C4, amended. After the items of a batch are triaged,
`process_batch` first calls the Progress Aggregator with the batch's
(processed, failed) counts and only then deletes every item of the
batch from the Staging Store — the deletion covers each barcode
regardless of its individual outcome, but it follows the progress
call rather than preceding it. -/
theorem batch_clears_staging_after_progress (outcome : String → SingleResult)
    (persistFails : String → Bool) (now : Int) (jobId : String) (bn : Nat)
    (barcodes : List String) (st : SCFState) :
    (∀ bc ∈ barcodes, Ev.stageDelete bc ∈
      (scfProcessBatch outcome persistFails true now jobId bn barcodes st).2) ∧
    progressBeforeDeletions
      (scfProcessBatch outcome persistFails true now jobId bn barcodes st).2 = true ∧
    Ev.progressUpdate jobId
        (barcodes.filter (fun x => singleSuccess (outcome x))).length
        (barcodes.filter (fun x => !singleSuccess (outcome x))).length ∈
      (scfProcessBatch outcome persistFails true now jobId bn barcodes st).2 ∧
    (scfProcessBatch outcome persistFails true now jobId bn barcodes st).1.stageTable =
      scfClearBatchFromStaging st.stageTable barcodes := by
  have htr : (scfProcessBatch outcome persistFails true now jobId bn barcodes st).2 =
      Ev.progressUpdate jobId
        (scfBatchLoop outcome persistFails jobId barcodes st.itemRecords).processed.length
        (scfBatchLoop outcome persistFails jobId barcodes st.itemRecords).failed.length ::
      barcodes.map Ev.stageDelete := rfl
  refine ⟨?_, ?_, ?_, ?_⟩
  · intro bc hbc
    rw [htr]
    exact List.mem_cons_of_mem _ (List.mem_map_of_mem Ev.stageDelete hbc)
  · rw [htr]
    exact progressBeforeDeletions_trace jobId _ _ barcodes
  · rw [htr, scfBatchLoop_processed, scfBatchLoop_failed, List.length_map]
    exact List.mem_cons_self _ _
  · show (scfUpdateBatchProgress
        { st with itemRecords :=
            (scfBatchLoop outcome persistFails jobId barcodes st.itemRecords).records }
        jobId _ _ now).stageTable.filter (fun e => e.rowKey ∉ barcodes) =
      scfClearBatchFromStaging st.stageTable barcodes
    rw [scfUpdateBatchProgress_stageTable]
    rfl

/-- Witness for the amended C4 at a concrete two-item batch with one
failing item. -/
theorem batch_clears_staging_after_progress_witness :
    (∀ bc ∈ ["B1", "B2"], Ev.stageDelete bc ∈
      (scfProcessBatch (fun bc => if bc = "B2" then SingleResult.notFoundInAlma
          else SingleResult.ok) (fun _ => false) true 0 "J1" 1 ["B1", "B2"]
        (jobOnlyState (freshJob "J1" 2 1))).2) ∧
    progressBeforeDeletions
      (scfProcessBatch (fun bc => if bc = "B2" then SingleResult.notFoundInAlma
          else SingleResult.ok) (fun _ => false) true 0 "J1" 1 ["B1", "B2"]
        (jobOnlyState (freshJob "J1" 2 1))).2 = true ∧
    Ev.progressUpdate "J1"
        (["B1", "B2"].filter (fun x => singleSuccess
          (if x = "B2" then SingleResult.notFoundInAlma else SingleResult.ok))).length
        (["B1", "B2"].filter (fun x => !singleSuccess
          (if x = "B2" then SingleResult.notFoundInAlma
            else SingleResult.ok))).length ∈
      (scfProcessBatch (fun bc => if bc = "B2" then SingleResult.notFoundInAlma
          else SingleResult.ok) (fun _ => false) true 0 "J1" 1 ["B1", "B2"]
        (jobOnlyState (freshJob "J1" 2 1))).2 ∧
    (scfProcessBatch (fun bc => if bc = "B2" then SingleResult.notFoundInAlma
        else SingleResult.ok) (fun _ => false) true 0 "J1" 1 ["B1", "B2"]
      (jobOnlyState (freshJob "J1" 2 1))).1.stageTable =
      scfClearBatchFromStaging (jobOnlyState (freshJob "J1" 2 1)).stageTable
        ["B1", "B2"] :=
  batch_clears_staging_after_progress
    (fun bc => if bc = "B2" then SingleResult.notFoundInAlma else SingleResult.ok)
    (fun _ => false) 0 "J1" 1 ["B1", "B2"] (jobOnlyState (freshJob "J1" 2 1))

/-- Counterexample to C5 as stated: item `B1` passes re-fetch and
re-classification, its report-row persist raises
(`persistFails = true`), yet it lands in the processed list — it is
not "counted among the batch's failed items". -/
theorem persist_error_counted_failed_cex :
    ¬ (("B1" ∈ ((scfBatchLoop (fun _ => SingleResult.ok) (fun _ => true) "J1"
          ["B1"] []).failed.map Prod.fst)) ∧
      "B1" ∉ (scfBatchLoop (fun _ => SingleResult.ok) (fun _ => true) "J1"
          ["B1"] []).processed) := by
  decide

/-- Claim C5, amended. For an item that passes the re-fetch and
re-classification steps, a persist error of its report row is caught
and logged, and the item is still counted among the batch's processed
items — never among its failed items.  Failure outcomes arise only
from the fetch and classification steps. -/
theorem persist_error_item_still_processed (outcome : String → SingleResult)
    (persistFails : String → Bool) (jobId : String) (barcodes : List String)
    (records0 : List ItemRecord) (bc : String)
    (hbc : bc ∈ barcodes) (hok : outcome bc = SingleResult.ok) :
    bc ∈ (scfBatchLoop outcome persistFails jobId barcodes records0).processed ∧
    bc ∉ ((scfBatchLoop outcome persistFails jobId barcodes records0).failed.map
      Prod.fst) := by
  rw [scfBatchLoop_processed, scfBatchLoop_failed]
  constructor
  · exact List.mem_filter.mpr ⟨hbc, by rw [hok]; rfl⟩
  · intro hmem
    rw [List.map_map] at hmem
    have h1 : bc ∈ barcodes.filter (fun x => !singleSuccess (outcome x)) := by
      simpa using hmem
    have h2 := (List.mem_filter.mp h1).2
    rw [hok] at h2
    simp [singleSuccess] at h2

/-- Witness for the amended C5: one item, successful outcome, persist
always failing. -/
theorem persist_error_item_still_processed_witness :
    "B1" ∈ (scfBatchLoop (fun _ => SingleResult.ok) (fun _ => true) "J1"
      ["B1"] []).processed ∧
    "B1" ∉ ((scfBatchLoop (fun _ => SingleResult.ok) (fun _ => true) "J1"
      ["B1"] []).failed.map Prod.fst) :=
  persist_error_item_still_processed (fun _ => SingleResult.ok) (fun _ => true)
    "J1" ["B1"] [] "B1" (by decide) rfl

/-- Counterexample to C6 as stated for the SCF category: with a
45-minute-old `in_progress` job record (`created_at = 0` while the
current time is 45 minutes, past any 30-minute staleness threshold),
the SCF check still answers already-running — it consults no clock
and deletes nothing, so "deletes that lock and the launch proceeds"
is false for this category. -/
theorem scf_stale_job_still_blocks_cex :
    ¬ (scfIsJobAlreadyRunning false
        [{ rowKey := "J", status := "in_progress", total_items := 5,
           total_batches := 3, completed_batches := 1, processed_items := 1,
           failed_items := 0, created_at := 0, completed_at := none }] =
      false) := by
  decide

/-- Claim C6, amended. Stale-lock recovery exists only for the IZ
category: when the IZ lock row's `created_at` parses and its age
exceeds the 30-minute threshold, the check deletes the row and
answers not-already-running.  The SCF check has no staleness
handling: any `in_progress` job record, of whatever age, makes it
answer already-running, and nothing is deleted. -/
theorem stale_lock_recovery_iz_only :
    (∀ (st : IZState) (t now : Int),
      st.lock = some { created_at := TimeStr.valid t } → 30 < now - t →
      izIsJobAlreadyRunning false now st = (false, { st with lock := none })) ∧
    (∀ (jobs : List JobEntity) (j : JobEntity),
      j ∈ jobs → j.status = "in_progress" →
      scfIsJobAlreadyRunning false jobs = true) :=
  ⟨izCheck_stale, scfCheck_inprogress⟩

/-- Witness for the amended C6: an IZ lock created 45 minutes ago is
deleted and reported not-running; a 45-minute-old SCF `in_progress`
job still reports running. -/
theorem stale_lock_recovery_iz_only_witness :
    izIsJobAlreadyRunning false 45
      { stageTable := [], lock := some { created_at := TimeStr.valid 0 },
        queueMessages := [] } =
      (false, { stageTable := [], lock := none, queueMessages := [] }) ∧
    scfIsJobAlreadyRunning false
      [{ rowKey := "J", status := "in_progress", total_items := 5,
         total_batches := 3, completed_batches := 1, processed_items := 1,
         failed_items := 0, created_at := 0, completed_at := none }] = true :=
  ⟨stale_lock_recovery_iz_only.1
      { stageTable := [], lock := some { created_at := TimeStr.valid 0 },
        queueMessages := [] } 0 45 rfl (by decide),
    stale_lock_recovery_iz_only.2 _
      { rowKey := "J", status := "in_progress", total_items := 5,
        total_batches := 3, completed_batches := 1, processed_items := 1,
        failed_items := 0, created_at := 0, completed_at := none }
      (List.mem_singleton.mpr rfl) rfl⟩

/-- Claim C7. Any storage error during the already-running/lock check
is caught and answered not-already-running (fail-open) for both
categories, and the launch then proceeds: with the check erroring, a
nonempty staged set still yields a job record and the full list of
batch messages. -/
theorem lock_check_fails_open :
    (∀ jobs : List JobEntity, scfIsJobAlreadyRunning true jobs = false) ∧
    (∀ (now : Int) (st : IZState),
      izIsJobAlreadyRunning true now st = (false, st)) ∧
    (∀ (jobId : String) (b : Nat) (now : Int) (staged : List StagedEntity),
      staged ≠ [] →
      scfLaunch true true false jobId b now (initialSCFState staged) =
        { initialSCFState staged with
          jobs := [scfCreateBatchJob jobId staged.length b now]
          queueMessages := scfEnqueueBatches b staged jobId }) :=
  ⟨scfCheck_err, izCheck_err,
    fun jobId b now staged hne => scfLaunch_initial_err staged jobId b now hne⟩

/-- Witness for C7: the erroring check answers not-running for both
categories and the launch over one staged item enqueues its batch. -/
theorem lock_check_fails_open_witness :
    scfIsJobAlreadyRunning true
      [{ rowKey := "J", status := "in_progress", total_items := 1,
         total_batches := 1, completed_batches := 0, processed_items := 0,
         failed_items := 0, created_at := 0, completed_at := none }] = false ∧
    izIsJobAlreadyRunning true 0
      { stageTable := [], lock := some { created_at := TimeStr.empty },
        queueMessages := [] } =
      (false,
        { stageTable := [], lock := some { created_at := TimeStr.empty },
          queueMessages := [] }) ∧
    scfLaunch true true false "J" 1 0 (initialSCFState [⟨"B1", ""⟩]) =
      { initialSCFState [⟨"B1", ""⟩] with
        jobs := [scfCreateBatchJob "J" ([⟨"B1", ""⟩] :
          List StagedEntity).length 1 0]
        queueMessages := scfEnqueueBatches 1 [⟨"B1", ""⟩] "J" } :=
  ⟨lock_check_fails_open.1 _,
    lock_check_fails_open.2.1 0 _,
    lock_check_fails_open.2.2 "J" 1 0 [⟨"B1", ""⟩] (by decide)⟩

/-- Claim C9. While the check answers already-running — an
`in_progress` job record for SCF, a fresh (age ≤ 30 minutes) lock
row for IZ — the launcher returns immediately and the storage state
is exactly unchanged: no job record, no enqueued batch, staging
untouched. -/
theorem launch_noop_while_running :
    (∀ (instFound stageReadErr : Bool) (jobId : String) (b : Nat) (now : Int)
      (st : SCFState) (j : JobEntity), j ∈ st.jobs → j.status = "in_progress" →
      scfLaunch false instFound stageReadErr jobId b now st = st) ∧
    (∀ (stageReadErr : Bool) (jobId : String) (b : Nat) (now : Int)
      (st : IZState) (t : Int),
      st.lock = some { created_at := TimeStr.valid t } → now - t ≤ 30 →
      izLaunch false stageReadErr jobId b now st = st) := by
  constructor
  · intro instFound stageReadErr jobId b now st j hj hs
    unfold scfLaunch
    rw [scfCheck_inprogress st.jobs j hj hs]
    rfl
  · intro stageReadErr jobId b now st t hl hle
    unfold izLaunch
    rw [izCheck_fresh st t now hl hle]
    rfl

/-- Witness for C9: with a held lock, both launchers leave the state
unchanged. -/
theorem launch_noop_while_running_witness :
    scfLaunch false true false "J" 2 45 (jobOnlyState (freshJob "J0" 5 3)) =
      jobOnlyState (freshJob "J0" 5 3) ∧
    izLaunch false false "J" 2 10
      { stageTable := [⟨"B1", "au"⟩],
        lock := some { created_at := TimeStr.valid 0 }, queueMessages := [] } =
      { stageTable := [⟨"B1", "au"⟩],
        lock := some { created_at := TimeStr.valid 0 }, queueMessages := [] } :=
  ⟨launch_noop_while_running.1 true false "J" 2 45
      (jobOnlyState (freshJob "J0" 5 3)) (freshJob "J0" 5 3)
      (List.mem_singleton.mpr rfl) rfl,
    launch_noop_while_running.2 false "J" 2 10
      { stageTable := [⟨"B1", "au"⟩],
        lock := some { created_at := TimeStr.valid 0 }, queueMessages := [] }
      0 rfl (by decide)⟩

/-- Claim C10. The IZ stale-lock branch (parsed `created_at`, age over
30 minutes) deletes the lock row, answers not-already-running, and
writes no fresh lock; the unparseable-`created_at` branch answers
not-already-running while deleting nothing and writing nothing; by
contrast the absent-lock branch writes a fresh lock row before
answering not-already-running. -/
theorem iz_stale_branch_writes_no_lock :
    (∀ (st : IZState) (t now : Int),
      st.lock = some { created_at := TimeStr.valid t } → 30 < now - t →
      izIsJobAlreadyRunning false now st = (false, { st with lock := none })) ∧
    (∀ (st : IZState) (s : String) (now : Int),
      st.lock = some { created_at := TimeStr.invalid s } →
      izIsJobAlreadyRunning false now st = (false, st)) ∧
    (∀ (st : IZState) (now : Int), st.lock = none →
      izIsJobAlreadyRunning false now st =
        (false, { st with lock := some { created_at := TimeStr.valid now } })) :=
  ⟨izCheck_stale, izCheck_invalid, izCheck_absent⟩

/-- Witness for C10 exercising all three branches at concrete
states. -/
theorem iz_stale_branch_writes_no_lock_witness :
    izIsJobAlreadyRunning false 31
      { stageTable := [], lock := some { created_at := TimeStr.valid 0 },
        queueMessages := [] } =
      (false, { stageTable := [], lock := none, queueMessages := [] }) ∧
    izIsJobAlreadyRunning false 31
      { stageTable := [], lock := some { created_at := TimeStr.invalid "xx" },
        queueMessages := [] } =
      (false,
        { stageTable := [], lock := some { created_at := TimeStr.invalid "xx" },
          queueMessages := [] }) ∧
    izIsJobAlreadyRunning false 31
      { stageTable := [], lock := none, queueMessages := [] } =
      (false,
        { stageTable := [], lock := some { created_at := TimeStr.valid 31 },
          queueMessages := [] }) :=
  ⟨iz_stale_branch_writes_no_lock.1
      { stageTable := [], lock := some { created_at := TimeStr.valid 0 },
        queueMessages := [] } 0 31 rfl (by decide),
    iz_stale_branch_writes_no_lock.2.1
      { stageTable := [], lock := some { created_at := TimeStr.invalid "xx" },
        queueMessages := [] } "xx" 31 rfl,
    iz_stale_branch_writes_no_lock.2.2
      { stageTable := [], lock := none, queueMessages := [] } 31 rfl⟩

end AlmaItemChecks
